import Mathlib

/-!
Verification of the BankPL pagination / statement-rendering core.

This file gives a shallow embedding, in Lean 4, of the algorithmic core of the
BankPL repository (a synthetic bank-statement PDF generator) and proves or
refutes the frozen specification claims about it.

Conventions used throughout:
* Python floats that hold page geometry or money are modelled as exact
  rationals (`ℚ`); the claims under study are about the arithmetic structure
  of the code, not about IEEE-754 rounding.
* ReportLab's `stringWidth` is an opaque deterministic metric, modelled as an
  explicit function argument `sw : String → ℚ`.
* A Python `dict` is modelled as an association list `List (String × v)`
  (Python dicts preserve insertion order); `key in ctx` is list membership of
  the key.
* Drawing to the ReportLab canvas is modelled by traces (lists of draw
  events) or by counters where only the number of draw events matters.
-/

namespace BankPL

/-! Section: PageCursor: `check_page_break` (src/classic_functions.py lines 47-81)

The source decides a page break with `if y_position - space_needed < margin`,
then resets `y_position = page_height - margin`, and — when `is_table` is
truthy and both `headers` and `col_widths` are non-empty — redraws the table
header row and advances past it with `y_position -= font_size + 4`.
The canvas side effects (`showPage`, `setFont`, header `drawString`s) are
abstracted into the two Booleans `broke` and `headerRedrawn`. -/

structure PageBreakResult where
  y : ℚ
  broke : Bool
  headerRedrawn : Bool
  deriving Repr, DecidableEq

/-- Embedding of `check_page_break(c, y_position, margin, page_height,
space_needed, font_name, font_size, is_table, headers, col_widths,
header_font)`.  The canvas `c`, `font_name` and `header_font` arguments only
affect which font the canvas is left in, not the returned y-position, and are
omitted.  Python truthiness of `headers` / `col_widths` (default `None`) is
non-emptiness of the lists. -/
def check_page_break (y_position margin page_height space_needed font_size : ℚ)
    (is_table : Bool) (headers : List String) (col_widths : List ℚ) :
    PageBreakResult :=
  if y_position - space_needed < margin then
    let y1 : ℚ := page_height - margin
    if is_table ∧ headers ≠ [] ∧ col_widths ≠ [] then
      { y := y1 - (font_size + 4), broke := true, headerRedrawn := true }
    else
      { y := y1, broke := true, headerRedrawn := false }
  else
    { y := y_position, broke := false, headerRedrawn := false }

/-! Section: TextMeasurer: `wrap_text` (src/classic_functions.py lines 11-41)

`wrap_text` splits the text into whitespace-delimited words
(`text.split()`), then greedily packs them into lines, measuring each word as
`c.stringWidth(word + " ", font_name, font_size)`.  We embed the algorithm at
the word level: the input is the word list produced by `text.split()` (a list
of non-empty, whitespace-free tokens) and each output line is the list of
words later joined by `" ".join(current_line)`.  `sw` is the string-width
metric for the fixed font/size pair. -/

/-- The main loop of `wrap_text`: state is `(current_line, current_width)`;
a word is appended when `current_width + word_width <= max_width`, otherwise
the current line is flushed (even if empty, as on an oversized first word)
and the word starts a new line.  The trailing `if current_line:` flush is the
base case. -/
def wrapAux (sw : String → ℚ) (max_width : ℚ) :
    List String → List String → ℚ → List (List String)
  | [], current_line, _ =>
    if current_line ≠ [] then [current_line] else []
  | word :: words, current_line, current_width =>
    let word_width := sw (word ++ " ")
    if current_width + word_width ≤ max_width then
      wrapAux sw max_width words (current_line ++ [word]) (current_width + word_width)
    else
      current_line :: wrapAux sw max_width words [word] word_width

/-- Embedding of `wrap_text(c, text, font_name, font_size, max_width)` on the
word list `words = text.split()`. -/
def wrap_text (sw : String → ℚ) (words : List String) (max_width : ℚ) :
    List (List String) :=
  wrapAux sw max_width words [] 0

/-- Measured width of a line, counting a single trailing space per word,
exactly as the loop accumulates it: `Σ sw (word + " ")`. -/
def lineWidth (sw : String → ℚ) (line : List String) : ℚ :=
  (line.map (fun w => sw (w ++ " "))).sum

theorem lineWidth_nil (sw : String → ℚ) : lineWidth sw [] = 0 := rfl

theorem lineWidth_append (sw : String → ℚ) (l : List String) (w : String) :
    lineWidth sw (l ++ [w]) = lineWidth sw l + sw (w ++ " ") := by
  simp [lineWidth]

/-- Words are conserved: the concatenation of the produced lines is the
current line followed by the remaining words. -/
theorem wrapAux_join (sw : String → ℚ) (mw : ℚ) :
    ∀ (words current_line : List String) (cw : ℚ),
      (wrapAux sw mw words current_line cw).join = current_line ++ words := by
  intro words
  induction words with
  | nil =>
    intro current_line cw
    by_cases h : current_line = [] <;> simp [wrapAux, h]
  | cons w ws ih =>
    intro current_line cw
    simp only [wrapAux]
    by_cases h : cw + sw (w ++ " ") ≤ mw
    · simp [h, ih]
    · simp [h, ih]

/-- Every line produced by the loop either came from flushing the running
line (whose width invariant we carry) or is started fresh; any line with at
least two words has measured width at most `max_width`. -/
theorem wrapAux_width (sw : String → ℚ) (mw : ℚ) :
    ∀ (words current_line : List String) (cw : ℚ),
      cw = lineWidth sw current_line →
      (2 ≤ current_line.length → cw ≤ mw) →
      ∀ l ∈ wrapAux sw mw words current_line cw,
        2 ≤ l.length → lineWidth sw l ≤ mw := by
  intro words
  induction words with
  | nil =>
    intro current_line cw hcw hinv l hl
    by_cases h : current_line = []
    · simp [wrapAux, h] at hl
    · simp [wrapAux, h] at hl
      subst hl
      intro hlen
      exact hcw ▸ hinv hlen
  | cons w ws ih =>
    intro current_line cw hcw hinv l hl
    simp only [wrapAux] at hl
    by_cases h : cw + sw (w ++ " ") ≤ mw
    · simp only [if_pos h] at hl
      refine ih (current_line ++ [w]) (cw + sw (w ++ " ")) ?_ ?_ l hl
      · rw [lineWidth_append, hcw]
      · intro _; exact h
    · simp only [if_neg h, List.mem_cons] at hl
      rcases hl with rfl | hl
      · intro hlen; exact hcw ▸ hinv hlen
      · refine ih [w] (sw (w ++ " ")) ?_ ?_ l hl
        · simp [lineWidth]
        · intro hlen; simp at hlen

/-- Claim C1, corrected claim (pagination invariant of `check_page_break`).
Provided `margin ≤ y ≤ page_height − margin`, `space_needed ≥ 0`,
`font_size ≥ 0`, and — in the table-header-redraw configuration — the
header row fits in the usable page height
(`font_size + 4 ≤ page_height − 2·margin`): a page break occurs iff the
pre-call `y` minus `space_needed` would have gone below `margin`, and the
returned y-position satisfies `margin ≤ y' ≤ page_height − margin`.
(The extra header-fit hypothesis is forced by
`checkPageBreak_below_margin`: without it the post-break header advance
`y -= font_size + 4` can leave `y' < margin`.) -/
theorem checkPageBreak_invariant
    (y margin page_height space_needed font_size : ℚ)
    (is_table : Bool) (headers : List String) (col_widths : List ℚ)
    (hy₁ : margin ≤ y) (hy₂ : y ≤ page_height - margin)
    (hs : 0 ≤ space_needed) (hf : 0 ≤ font_size)
    (hfit : is_table = true → headers ≠ [] → col_widths ≠ [] →
      font_size + 4 ≤ page_height - 2 * margin) :
    ((check_page_break y margin page_height space_needed font_size
        is_table headers col_widths).broke = true ↔
      y - space_needed < margin) ∧
      margin ≤ (check_page_break y margin page_height space_needed font_size
        is_table headers col_widths).y ∧
      (check_page_break y margin page_height space_needed font_size
        is_table headers col_widths).y ≤ page_height - margin := by
  unfold check_page_break
  by_cases hbr : y - space_needed < margin
  · by_cases htab : is_table = true ∧ headers ≠ [] ∧ col_widths ≠ []
    · have hfit' := hfit htab.1 htab.2.1 htab.2.2
      simp only [if_pos hbr, if_pos htab]
      refine ⟨by simp [hbr], by linarith, by linarith⟩
    · simp only [if_pos hbr, if_neg htab]
      have hm : margin ≤ page_height - margin := le_trans hy₁ hy₂
      refine ⟨by simp [hbr], by linarith, by linarith⟩
  · simp only [if_neg hbr]
    exact ⟨by simp [hbr], hy₁, hy₂⟩

/-- Witness for `checkPageBreak_invariant` at concrete inputs
(y = 100, margin = 36, page_height = 792, space_needed = 80,
font_size = 12, table call with one header column): the break fires and
the returned y stays within `[margin, page_height − margin]`. -/
theorem checkPageBreak_invariant_witness :
    ((36 : ℚ) ≤ 100 ∧ (100 : ℚ) ≤ 792 - 36 ∧ (0 : ℚ) ≤ 80 ∧ (0 : ℚ) ≤ 12 ∧
      (12 : ℚ) + 4 ≤ 792 - 2 * 36) ∧
    (((check_page_break 100 36 792 80 12 true ["Date"] [100]).broke = true ↔
        (100 : ℚ) - 80 < 36) ∧
      (36 : ℚ) ≤ (check_page_break 100 36 792 80 12 true ["Date"] [100]).y ∧
      (check_page_break 100 36 792 80 12 true ["Date"] [100]).y ≤ 792 - 36) :=
  ⟨by norm_num,
    checkPageBreak_invariant 100 36 792 80 12 true ["Date"] [100]
      (by norm_num) (by norm_num) (by norm_num) (by norm_num)
      (fun _ _ _ => by norm_num)⟩

/-- Claim C1, counterexample to the claim as stated.  With
`margin = 45, page_height = 100` (so `margin ≤ y ≤ page_height − margin`
holds for `y = 45`), `space_needed = 10 ≥ 0`, and a table call with
`font_size = 12`, the post-break header redraw leaves the returned
y-position `55 − 16 = 39 < 45 = margin`, violating the claimed lower
bound `y' ≥ margin`. -/
theorem checkPageBreak_below_margin :
    ((45 : ℚ) ≤ 45 ∧ (45 : ℚ) ≤ 100 - 45 ∧ (0 : ℚ) ≤ 10) ∧
    (check_page_break 45 45 100 10 12 true ["Date"] [100]).y < 45 := by
  constructor
  · norm_num
  · norm_num [check_page_break]

/-- Claim C2, confirmed (wrap correctness).  For every width metric `sw`,
every positive `max_width` and every word list (the result of
`text.split()`), the lines returned by `wrap_text` satisfy: concatenating
the words of the lines in order reproduces the input word sequence exactly,
and every line either has measured width (a single trailing space per word)
at most `max_width` or consists of a single word whose (space-padded) width
exceeds `max_width`, kept intact on its own line. -/
theorem wrapText_spec (sw : String → ℚ) (max_width : ℚ) (words : List String)
    (hW : 0 < max_width) :
    (wrap_text sw words max_width).join = words ∧
      ∀ l ∈ wrap_text sw words max_width,
        lineWidth sw l ≤ max_width ∨
          ∃ w, l = [w] ∧ max_width < lineWidth sw l := by
  constructor
  · simpa using wrapAux_join sw max_width words [] 0
  · intro l hl
    by_cases hle : lineWidth sw l ≤ max_width
    · exact Or.inl hle
    · right
      have hlen : ¬ 2 ≤ l.length := by
        intro h2
        exact hle (wrapAux_width sw max_width words [] 0 (by simp [lineWidth])
          (by simp) l hl h2)
      interval_cases h : l.length
      · exfalso
        rw [List.length_eq_zero] at h
        subst h
        exact hle (le_of_lt (lineWidth_nil sw ▸ hW))
      · rw [List.length_eq_one] at h
        obtain ⟨w, rfl⟩ := h
        exact ⟨w, rfl, lt_of_not_le hle⟩

/-- Witness for `wrapText_spec` with `sw = length`, `max_width = 10`,
words `["ab", "cd"]`. -/
theorem wrapText_spec_witness :
    (0 : ℚ) < 10 ∧
    ((wrap_text (fun s => (s.length : ℚ)) ["ab", "cd"] 10).join = ["ab", "cd"] ∧
      ∀ l ∈ wrap_text (fun s => (s.length : ℚ)) ["ab", "cd"] 10,
        lineWidth (fun s => (s.length : ℚ)) l ≤ 10 ∨
          ∃ w, l = [w] ∧ 10 < lineWidth (fun s => (s.length : ℚ)) l) :=
  ⟨by norm_num, wrapText_spec (fun s => (s.length : ℚ)) 10 ["ab", "cd"] (by norm_num)⟩

/-! Section: Table rendering in `create_dynamic_statement`
(src/dynamic.py, sequential branch, lines 300-334)

After resolving `data`, the sequential branch draws the header row once,
guarded by `if headers and y_position - (header_height + row_height) >= margin`,
and then, for every data row, calls
`check_page_break(..., row_height, font, size, is_table=(title in
["Transaction History", "Daily Ending Balance"]), headers=headers,
col_widths=col_widths)` before drawing the row and advancing
`y_position -= size + 4`.  Both `row_height` and `header_height` equal
`content_style["size"] + 4`.  Only the y-cursor, the number of breaks and
the number of header-row draws are relevant to claim C3; the cell
`drawString`s are abstracted away. -/

structure TableRenderState where
  y : ℚ
  headerDraws : ℕ
  breaks : ℕ
  deriving Repr, DecidableEq

/-- One iteration of `for row in data:`: the `check_page_break` call
(which redraws the header on a break of a recognized table) followed by
drawing the row and `y_position -= size + 4`. -/
def renderTableRow (size margin page_height : ℚ) (is_table : Bool)
    (headers : List String) (col_widths : List ℚ)
    (st : TableRenderState) : TableRenderState :=
  let r := check_page_break st.y margin page_height (size + 4) size
    is_table headers col_widths
  { y := r.y - (size + 4),
    headerDraws := st.headerDraws + (if r.headerRedrawn then 1 else 0),
    breaks := st.breaks + (if r.broke then 1 else 0) }

/-- The table-rendering fragment of `create_dynamic_statement` (sequential
branch): the guarded initial header draw followed by the row loop over
`nrows` data rows.  `is_table` is
`section["title"] in ["Transaction History", "Daily Ending Balance"]`. -/
def renderTable (size margin page_height : ℚ) (is_table : Bool)
    (headers : List String) (col_widths : List ℚ) (nrows : ℕ) (y0 : ℚ) :
    TableRenderState :=
  let row_height := size + 4
  let header_height : ℚ := if headers ≠ [] then size + 4 else 0
  let st0 : TableRenderState :=
    if headers ≠ [] ∧ y0 - (header_height + row_height) ≥ margin then
      { y := y0 - (size + 4), headerDraws := 1, breaks := 0 }
    else
      { y := y0, headerDraws := 0, breaks := 0 }
  Nat.rec st0
    (fun _ st => renderTableRow size margin page_height is_table headers col_widths st)
    nrows

theorem renderTable_zero (size margin page_height : ℚ) (is_table : Bool)
    (headers : List String) (col_widths : List ℚ) (y0 : ℚ) :
    renderTable size margin page_height is_table headers col_widths 0 y0 =
      (if headers ≠ [] ∧ y0 - ((if headers ≠ [] then size + 4 else 0) + (size + 4)) ≥ margin then
        { y := y0 - (size + 4), headerDraws := 1, breaks := 0 }
      else
        { y := y0, headerDraws := 0, breaks := 0 }) := rfl

theorem renderTable_succ (size margin page_height : ℚ) (is_table : Bool)
    (headers : List String) (col_widths : List ℚ) (n : ℕ) (y0 : ℚ) :
    renderTable size margin page_height is_table headers col_widths (n + 1) y0 =
      renderTableRow size margin page_height is_table headers col_widths
        (renderTable size margin page_height is_table headers col_widths n y0) := rfl

/-- In a row step of a recognized table (`is_table = true`, non-empty
headers and column widths), the header is redrawn exactly when a break
occurred. -/
theorem renderTableRow_headerDraws (size margin page_height : ℚ)
    (headers : List String) (col_widths : List ℚ)
    (hh : headers ≠ []) (hc : col_widths ≠ []) (st : TableRenderState) :
    (renderTableRow size margin page_height true headers col_widths st).headerDraws =
      st.headerDraws +
        (if st.y - (size + 4) < margin then 1 else 0) ∧
    (renderTableRow size margin page_height true headers col_widths st).breaks =
      st.breaks + (if st.y - (size + 4) < margin then 1 else 0) := by
  unfold renderTableRow check_page_break
  by_cases hbr : st.y - (size + 4) < margin
  · simp [hbr, hh, hc]
  · simp [hbr]

/-- Claim C3, corrected claim (table header repeat).  For a table of the
dynamic layout whose section title is recognized as tabular
(`is_table = true`), with a non-empty header row and non-empty column
widths, and whose initial header-draw guard holds
(`y0 − (header_height + row_height) ≥ margin`), the number of times the
header row is drawn is exactly `1 +` the number of page breaks taken while
drawing the rows: with one break the header appears exactly twice (once per
page), with no break exactly once.  (The guard hypothesis is forced by
`renderTable_headerDraws_zero`: a table that starts too close to the bottom
edge draws its header zero times even when no break occurs.) -/
theorem renderTable_header_repeat (size margin page_height : ℚ)
    (headers : List String) (col_widths : List ℚ) (nrows : ℕ) (y0 : ℚ)
    (hh : headers ≠ []) (hc : col_widths ≠ [])
    (hguard : y0 - ((size + 4) + (size + 4)) ≥ margin) :
    (renderTable size margin page_height true headers col_widths nrows y0).headerDraws =
      1 + (renderTable size margin page_height true headers col_widths nrows y0).breaks := by
  induction nrows with
  | zero =>
    rw [renderTable_zero]
    simp [hh, hguard]
  | succ n ih =>
    rw [renderTable_succ]
    obtain ⟨h1, h2⟩ := renderTableRow_headerDraws size margin page_height
      headers col_widths hh hc
      (renderTable size margin page_height true headers col_widths n y0)
    rw [h1, h2, ih]
    ring

/-- Witness for `renderTable_header_repeat`: a 3-row recognized table
starting at `y0 = 80` with `margin = 36`, `size = 10`
(`80 − 28 = 52 ≥ 36`): the break taken mid-table makes the header count
`1 + breaks`. -/
theorem renderTable_header_repeat_witness :
    ((["Date", "Description", "Amount", "Balance"] : List String) ≠ [] ∧
      ([100, 200, 100, 100] : List ℚ) ≠ [] ∧
      (80 : ℚ) - ((10 + 4) + (10 + 4)) ≥ 36) ∧
    (renderTable 10 36 792 true ["Date", "Description", "Amount", "Balance"]
        [100, 200, 100, 100] 3 80).headerDraws =
      1 + (renderTable 10 36 792 true ["Date", "Description", "Amount", "Balance"]
        [100, 200, 100, 100] 3 80).breaks :=
  ⟨⟨by simp, by simp, by norm_num⟩,
    renderTable_header_repeat 10 36 792
      ["Date", "Description", "Amount", "Balance"] [100, 200, 100, 100] 3 80
      (by simp) (by simp) (by norm_num)⟩

/-- Claim C3, counterexample to the claim as stated.  A recognized one-row
table with a header, started at `y0 = 55` with `margin = 36`, `size = 10`
(so the initial guard `55 − 28 ≥ 36` fails but the single row still fits:
`55 − 14 ≥ 36`): no page break occurs, yet the header is drawn zero
times — not once as the claim requires. -/
theorem renderTable_headerDraws_zero :
    (renderTable 10 36 792 true ["Date", "Description", "Amount", "Balance"]
        [100, 200, 100, 100] 1 55).breaks = 0 ∧
      (renderTable 10 36 792 true ["Date", "Description", "Amount", "Balance"]
        [100, 200, 100, 100] 1 55).headerDraws = 0 := by
  have hne : (["Date", "Description", "Amount", "Balance"] : List String) ≠ [] :=
    fun h => List.noConfusion h
  have hne' : ([100, 200, 100, 100] : List ℚ) ≠ [] :=
    fun h => List.noConfusion h
  rw [renderTable_succ, renderTable_zero]
  norm_num [hne, hne', renderTableRow, check_page_break]

/-! Section: Required-field validation of the fixed bank layouts
(src/classic_functions.py lines 99-103, 337-341, 631-635, 905-909)

Each `create_<bank>_classic(ctx, output_buffer)` starts with
`for key in required_keys: if key not in ctx: raise ValueError(f"Missing
required context key: {key}")`, before the canvas is created.  The four
per-bank `required_keys` lists are transcribed verbatim below.  A context
dictionary is represented by its list of keys. -/

def requiredKeysCiti : List String :=
  ["customer_account_number", "logo_path", "customer_bank_name", "account_type",
    "account_holder", "statement_period", "statement_date", "transactions", "summary"]

def requiredKeysChase : List String :=
  ["customer_account_number", "logo_path", "account_holder", "account_holder_address",
    "statement_period", "account_type", "summary", "deposits", "withdrawals",
    "daily_balances"]

def requiredKeysWellsFargo : List String :=
  ["customer_account_number", "logo_path", "account_type", "account_holder_address",
    "statement_period", "summary", "transactions"]

def requiredKeysPNC : List String :=
  ["customer_account_number", "logo_path", "account_type", "statement_period",
    "account_holder", "account_holder_address", "summary", "deposits", "withdrawals"]

/-- The validation loop: raises `ValueError` on the first key of
`required_keys` that is not in the context. -/
def validateRequired (required_keys ctxKeys : List String) : Except String Unit :=
  match required_keys with
  | [] => .ok ()
  | key :: rest =>
    if key ∈ ctxKeys then validateRequired rest ctxKeys
    else .error ("Missing required context key: " ++ key)

theorem validateRequired_ok_iff (required_keys ctxKeys : List String) :
    validateRequired required_keys ctxKeys = .ok () ↔
      ∀ k ∈ required_keys, k ∈ ctxKeys := by
  induction required_keys with
  | nil => simp [validateRequired]
  | cons key rest ih =>
    by_cases h : key ∈ ctxKeys
    · simp [validateRequired, h, ih]
    · simp [validateRequired, h]

theorem validateRequired_error (required_keys ctxKeys : List String)
    (h : ∃ k ∈ required_keys, k ∉ ctxKeys) :
    ∃ k ∈ required_keys, k ∉ ctxKeys ∧
      validateRequired required_keys ctxKeys =
        .error ("Missing required context key: " ++ k) := by
  induction required_keys with
  | nil => simp at h
  | cons key rest ih =>
    by_cases hk : key ∈ ctxKeys
    · obtain ⟨k, hkmem, hknot⟩ := h
      rcases List.mem_cons.mp hkmem with rfl | hkrest
      · exact absurd hk hknot
      · obtain ⟨k', h1, h2, h3⟩ := ih ⟨k, hkrest, hknot⟩
        exact ⟨k', List.mem_cons_of_mem _ h1, h2, by simpa [validateRequired, hk]⟩
    · exact ⟨key, List.mem_cons_self _ _, hk, by simp [validateRequired, hk]⟩

/-! Section: `create_wellsfargo_classic` as an ordered script of canvas draws and
`ctx[...]` key accesses (src/classic_functions.py lines 619-807)

For claim C4 only two aspects of the body matter: (a) the validation
prologue runs before the canvas is created, and (b) the first subscript
access of a key *not* in `required_keys` — `ctx['account_holder']` at
line 797 — happens after many draw operations.  We model the body as the
ordered list of its draw operations (labelled by the content they draw)
and its `ctx[key]` subscript accesses, in source order, up to and
including the `account_holder` access.  `ctx.get(...)` accesses (which
never raise) are treated as draws of the corresponding block.  Executing
the script returns the trace of completed draws paired with the outcome:
a `KeyError` stops the script at the offending access. -/

inductive WfStep where
  | draw (desc : String)
  | access (key : String)
  deriving Repr, DecidableEq

/-- The body of `create_wellsfargo_classic` after validation, in source
order, up to the `ctx['account_holder']` access in `routing_lines`
(line 797). -/
def wellsfargoScript : List WfStep :=
  [.access "account_type", .draw "account type heading",
    .access "customer_account_number", .access "statement_period",
    .draw "account number line",
    .access "account_holder_address", .draw "address lines",
    .draw "logo or bracketed placeholder",
    .draw "Questions? help text",
    .draw "Your Wells Fargo intro blurb",
    .access "account_type", .draw "Important Account Information",
    .access "summary", .draw "Activity summary block",
    .access "customer_account_number", .draw "routing line 1",
    .access "account_holder"]

/-- Run a script against the set of keys present in `ctx`: draws are
recorded in order; an access of an absent key aborts with a `KeyError`
naming the key, keeping the draws made so far. -/
def runWfScript (ctxKeys : List String) :
    List WfStep → List String × Except String Unit
  | [] => ([], .ok ())
  | .draw d :: rest =>
    let r := runWfScript ctxKeys rest
    (d :: r.1, r.2)
  | .access key :: rest =>
    if key ∈ ctxKeys then runWfScript ctxKeys rest
    else ([], .error ("KeyError: " ++ key))

/-- Embedding of `create_wellsfargo_classic(ctx, output_buffer)` at the
level of draw/access order: the validation loop over
`requiredKeysWellsFargo` runs first; on success the body script runs.
Returns the trace of canvas draws and the outcome. -/
def create_wellsfargo_classic (ctxKeys : List String) :
    List String × Except String Unit :=
  match validateRequired requiredKeysWellsFargo ctxKeys with
  | .error e => ([], .error e)
  | .ok _ => runWfScript ctxKeys wellsfargoScript

/-- Claim C4, corrected claim (missing-required-field validation).  For each
of the four fixed bank layouts, a context missing some key of that
layout's `required_keys` list makes the validation prologue raise
`ValueError: Missing required context key: <key>` naming a missing key;
for `create_wellsfargo_classic` this happens before any canvas content is
produced (empty draw trace).  However `account_holder` is a validated
required key only of the Citi, Chase and PNC layouts: it is absent from
`create_wellsfargo_classic`'s `required_keys`, so a Wells Fargo record
lacking (only) `account_holder` is *not* rejected up front — see
`wellsfargo_missing_account_holder` for a record that draws canvas content
and only then fails. -/
theorem missing_required_field_validation (ctxKeys : List String) :
    (∀ R ∈ [requiredKeysCiti, requiredKeysChase, requiredKeysWellsFargo,
        requiredKeysPNC],
      (∃ k ∈ R, k ∉ ctxKeys) →
        ∃ k ∈ R, k ∉ ctxKeys ∧
          validateRequired R ctxKeys =
            .error ("Missing required context key: " ++ k)) ∧
    ((∃ k ∈ requiredKeysWellsFargo, k ∉ ctxKeys) →
      (create_wellsfargo_classic ctxKeys).1 = [] ∧
        ∃ k ∈ requiredKeysWellsFargo, k ∉ ctxKeys ∧
          (create_wellsfargo_classic ctxKeys).2 =
            .error ("Missing required context key: " ++ k)) ∧
    "account_holder" ∉ requiredKeysWellsFargo ∧
    "account_holder" ∈ requiredKeysCiti ∧
    "account_holder" ∈ requiredKeysChase ∧
    "account_holder" ∈ requiredKeysPNC := by
  refine ⟨fun R _ h => validateRequired_error R ctxKeys h, ?_, ?_, ?_, ?_, ?_⟩
  · intro h
    obtain ⟨k, h1, h2, h3⟩ := validateRequired_error _ ctxKeys h
    unfold create_wellsfargo_classic
    rw [h3]
    exact ⟨rfl, k, h1, h2, rfl⟩
  · decide
  · decide
  · decide
  · decide

/-- Witness for `missing_required_field_validation` on the empty context:
every layout rejects it naming a missing key, and the Wells Fargo draw
trace is empty. -/
theorem missing_required_field_validation_witness :
    (∀ R ∈ [requiredKeysCiti, requiredKeysChase, requiredKeysWellsFargo,
        requiredKeysPNC],
      (∃ k ∈ R, k ∉ ([] : List String)) →
        ∃ k ∈ R, k ∉ ([] : List String) ∧
          validateRequired R [] =
            .error ("Missing required context key: " ++ k)) ∧
    ((∃ k ∈ requiredKeysWellsFargo, k ∉ ([] : List String)) →
      (create_wellsfargo_classic []).1 = [] ∧
        ∃ k ∈ requiredKeysWellsFargo, k ∉ ([] : List String) ∧
          (create_wellsfargo_classic []).2 =
            .error ("Missing required context key: " ++ k)) ∧
    "account_holder" ∉ requiredKeysWellsFargo ∧
    "account_holder" ∈ requiredKeysCiti ∧
    "account_holder" ∈ requiredKeysChase ∧
    "account_holder" ∈ requiredKeysPNC :=
  missing_required_field_validation []

/-- Claim C4, counterexample to the claim as stated.  A context holding
exactly `create_wellsfargo_classic`'s seven required keys but lacking
`account_holder` passes validation, produces canvas content (a non-empty
draw trace whose first element is the account-type heading), and only then
fails with `KeyError: account_holder` at the `routing_lines` access — not
a fatal error naming the field before any canvas content, as the claim
requires. -/
theorem wellsfargo_missing_account_holder :
    (create_wellsfargo_classic
        ["customer_account_number", "logo_path", "account_type",
          "account_holder_address", "statement_period", "summary",
          "transactions"]).2 = .error ("KeyError: " ++ "account_holder") ∧
    (create_wellsfargo_classic
        ["customer_account_number", "logo_path", "account_type",
          "account_holder_address", "statement_period", "summary",
          "transactions"]).1 ≠ [] := by
  constructor
  · rfl
  · decide

/-! Section: Data generation: `generate_statement_data`
(src/randomize.py lines 102-213 and src/gen_PL.py lines 80-198)

Both modules define a `generate_statement_data`.  The random choices of the
generation loop are abstracted into an input list of draws, one per loop
iteration: the transaction date (the `%m/%d` string, modelled as a sortable
natural key), the `trans_type` coin flip, and the amount.  Money amounts,
which the source holds as Python floats rounded to two decimals and
round-trips through `f"{...:.2f}"` strings, are modelled as exact
rationals; a populated credit/debit string is `some amount`, the empty
string is `none`.

* `randomize.generate_statement_data` builds the transaction list, sorts it
  by date (`transactions.sort(key=...)`, Python's stable sort), then
  recomputes the running balance in sorted order and stores it on each
  transaction; the summary totals/counts are accumulated during the
  generation loop and `ending_balance` is the final running balance.
* `gen_PL.generate_statement_data` never sorts: the running balance is
  accumulated in generation order and stored immediately. -/

structure TxDraw where
  date : ℕ
  isCredit : Bool
  amount : ℚ
  deriving Repr, DecidableEq

structure Txn where
  date : ℕ
  credit : Option ℚ
  debit : Option ℚ
  deriving Repr, DecidableEq

/-- The transaction dict built by one generation-loop iteration:
`credit = f"...{amount}"`, `debit = ""` for a credit draw, and symmetrically
for a debit draw. -/
def mkTxn (d : TxDraw) : Txn :=
  if d.isCredit then { date := d.date, credit := some d.amount, debit := none }
  else { date := d.date, credit := none, debit := some d.amount }

/-- `trans_date` ordering used by `transactions.sort(key=lambda x:
datetime.strptime(x['date'], '%m/%d'))`. -/
def dateLE (a b : Txn) : Prop := a.date ≤ b.date

instance : DecidableRel dateLE := fun a b => inferInstanceAs (Decidable (a.date ≤ b.date))

instance : IsTotal Txn dateLE := ⟨fun a b => Nat.le_total a.date b.date⟩

instance : IsTrans Txn dateLE := ⟨fun _ _ _ h1 h2 => le_trans h1 h2⟩

/-- The credit amount parsed back from the transaction's credit string
(`0` when the string is empty). -/
def creditAmount (t : Txn) : ℚ :=
  match t.credit with
  | some a => a
  | none => 0

/-- The debit amount parsed back from the transaction's debit string. -/
def debitAmount (t : Txn) : ℚ :=
  match t.debit with
  | some a => a
  | none => 0

/-- Effect of one transaction on the running balance:
`if credit: rb += amount` then `if debit: rb -= amount`. -/
def txnDelta (t : Txn) : ℚ := creditAmount t - debitAmount t

/-- The per-transaction stored balances of the recomputation loop
(`transaction["balance"] = f"...{running_balance}"` in order). -/
def balancesAfter (b0 : ℚ) : List Txn → List ℚ
  | [] => []
  | t :: ts => (b0 + txnDelta t) :: balancesAfter (b0 + txnDelta t) ts

/-- The value of `running_balance` after the recomputation loop. -/
def finalBalance (b0 : ℚ) (ts : List Txn) : ℚ :=
  ts.foldl (fun rb t => rb + txnDelta t) b0

/-- `deposits_total` as accumulated by the generation loop. -/
def depositsTotal (draws : List TxDraw) : ℚ :=
  draws.foldl (fun acc d => if d.isCredit then acc + d.amount else acc) 0

/-- `withdrawals_total` as accumulated by the generation loop. -/
def withdrawalsTotal (draws : List TxDraw) : ℚ :=
  draws.foldl (fun acc d => if d.isCredit then acc else acc + d.amount) 0

/-- `deposits_count` as accumulated by the generation loop. -/
def depositsCount (draws : List TxDraw) : ℕ :=
  draws.foldl (fun n d => if d.isCredit then n + 1 else n) 0

/-- `withdrawals_count` as accumulated by the generation loop. -/
def withdrawalsCount (draws : List TxDraw) : ℕ :=
  draws.foldl (fun n d => if d.isCredit then n else n + 1) 0

structure GenSummary where
  beginning_balance : ℚ
  deposits_count : ℕ
  deposits_total : ℚ
  withdrawals_count : ℕ
  withdrawals_total : ℚ
  ending_balance : ℚ
  deriving Repr, DecidableEq

structure GenResult where
  transactions : List Txn
  balances : List ℚ
  summary : GenSummary
  deriving Repr, DecidableEq

/-- Embedding of `randomize.generate_statement_data`: generate, sort by
date (stable), recompute running balances in sorted order, then build the
summary. -/
def generate_statement_data_randomize (b0 : ℚ) (draws : List TxDraw) : GenResult :=
  let txns := List.insertionSort dateLE (draws.map mkTxn)
  { transactions := txns
    balances := balancesAfter b0 txns
    summary :=
      { beginning_balance := b0
        deposits_count := depositsCount draws
        deposits_total := depositsTotal draws
        withdrawals_count := withdrawalsCount draws
        withdrawals_total := withdrawalsTotal draws
        ending_balance := finalBalance b0 txns } }

/-- Embedding of `gen_PL.generate_statement_data`: same generation loop,
but no sort — the balance is accumulated and stored in generation order
and `ending_balance` is the final accumulated balance. -/
def generate_statement_data_genPL (b0 : ℚ) (draws : List TxDraw) : GenResult :=
  let txns := draws.map mkTxn
  { transactions := txns
    balances := balancesAfter b0 txns
    summary :=
      { beginning_balance := b0
        deposits_count := depositsCount draws
        deposits_total := depositsTotal draws
        withdrawals_count := withdrawalsCount draws
        withdrawals_total := withdrawalsTotal draws
        ending_balance := finalBalance b0 txns } }

theorem length_balancesAfter (ts : List Txn) :
    ∀ b0 : ℚ, (balancesAfter b0 ts).length = ts.length := by
  induction ts with
  | nil => intro b0; rfl
  | cons t ts ih => intro b0; simp [balancesAfter, ih]

theorem balancesAfter_get (ts : List Txn) :
    ∀ (b0 : ℚ) (i : ℕ) (h : i < (balancesAfter b0 ts).length),
      (balancesAfter b0 ts).get ⟨i, h⟩ =
        b0 + ((ts.take (i + 1)).map txnDelta).sum := by
  induction ts with
  | nil => intro b0 i h; simp [balancesAfter] at h
  | cons t ts ih =>
    intro b0 i h
    match i with
    | 0 => simp [balancesAfter]
    | i + 1 =>
      have h' : i < (balancesAfter (b0 + txnDelta t) ts).length := by
        simpa [balancesAfter] using h
      have := ih (b0 + txnDelta t) i h'
      simp only [balancesAfter, List.get_cons_succ]
      rw [this]
      simp [List.take_cons]
      ring

theorem finalBalance_eq_sum (ts : List Txn) :
    ∀ b0 : ℚ, finalBalance b0 ts = b0 + (ts.map txnDelta).sum := by
  induction ts with
  | nil => intro b0; simp [finalBalance]
  | cons t ts ih =>
    intro b0
    simp only [finalBalance, List.foldl_cons] at ih ⊢
    rw [ih]
    simp
    ring

theorem balancesAfter_getLastD (ts : List Txn) :
    ∀ b0 : ℚ, (balancesAfter b0 ts).getLastD b0 = finalBalance b0 ts := by
  induction ts with
  | nil => intro b0; rfl
  | cons t ts ih =>
    intro b0
    rw [balancesAfter, List.getLastD_cons, ih]
    simp [finalBalance]

theorem creditAmount_mkTxn (d : TxDraw) :
    creditAmount (mkTxn d) = if d.isCredit then d.amount else 0 := by
  cases hd : d.isCredit <;> simp [mkTxn, creditAmount, hd]

theorem debitAmount_mkTxn (d : TxDraw) :
    debitAmount (mkTxn d) = if d.isCredit then 0 else d.amount := by
  cases hd : d.isCredit <;> simp [mkTxn, debitAmount, hd]

theorem depositsTotal_eq (draws : List TxDraw) :
    depositsTotal draws = ((draws.map mkTxn).map creditAmount).sum := by
  suffices h : ∀ a : ℚ,
      draws.foldl (fun acc d => if d.isCredit then acc + d.amount else acc) a =
        a + ((draws.map mkTxn).map creditAmount).sum by
    simpa using h 0
  induction draws with
  | nil => intro a; simp
  | cons d ds ih =>
    intro a
    simp only [List.foldl_cons, List.map_cons, List.sum_cons, ih, creditAmount_mkTxn]
    cases hd : d.isCredit <;> simp [hd] <;> ring

theorem withdrawalsTotal_eq (draws : List TxDraw) :
    withdrawalsTotal draws = ((draws.map mkTxn).map debitAmount).sum := by
  suffices h : ∀ a : ℚ,
      draws.foldl (fun acc d => if d.isCredit then acc else acc + d.amount) a =
        a + ((draws.map mkTxn).map debitAmount).sum by
    simpa using h 0
  induction draws with
  | nil => intro a; simp
  | cons d ds ih =>
    intro a
    simp only [List.foldl_cons, List.map_cons, List.sum_cons, ih, debitAmount_mkTxn]
    cases hd : d.isCredit <;> simp [hd] <;> ring

theorem depositsCount_eq (draws : List TxDraw) :
    depositsCount draws = (draws.map mkTxn).countP (fun t => t.credit.isSome) := by
  suffices h : ∀ a : ℕ,
      draws.foldl (fun n d => if d.isCredit then n + 1 else n) a =
        a + (draws.map mkTxn).countP (fun t => t.credit.isSome) by
    simpa using h 0
  induction draws with
  | nil => intro a; simp [List.countP, List.countP.go]
  | cons d ds ih =>
    intro a
    simp only [List.foldl_cons, List.map_cons, ih]
    cases hd : d.isCredit <;>
      simp [mkTxn, hd, List.countP_cons] <;> omega

theorem withdrawalsCount_eq (draws : List TxDraw) :
    withdrawalsCount draws = (draws.map mkTxn).countP (fun t => t.debit.isSome) := by
  suffices h : ∀ a : ℕ,
      draws.foldl (fun n d => if d.isCredit then n else n + 1) a =
        a + (draws.map mkTxn).countP (fun t => t.debit.isSome) by
    simpa using h 0
  induction draws with
  | nil => intro a; simp [List.countP, List.countP.go]
  | cons d ds ih =>
    intro a
    simp only [List.foldl_cons, List.map_cons, ih]
    cases hd : d.isCredit <;>
      simp [mkTxn, hd, List.countP_cons] <;> omega

/-- Claim C5, corrected claim (generated-record invariants).  For every
record produced by `randomize.generate_statement_data` (beginning balance
`b0`, generation draws `draws`): the transaction list is ascending by
date; the balance stored on the i-th transaction equals `b0` plus the
credits minus the debits of transactions 1..i; the last stored balance
equals `summary.ending_balance`; `deposits_total` / `withdrawals_total`
equal the sums of credit / debit amounts over the transactions, and the
counts match the respective cardinalities.  For
`gen_PL.generate_statement_data` all the balance and summary properties
hold in the same way with respect to the list order, but the transaction
list is in generation order, **not** sorted chronologically (see
`genPL_not_sorted`). -/
theorem generate_statement_data_spec (b0 : ℚ) (draws : List TxDraw) :
    (List.Sorted dateLE (generate_statement_data_randomize b0 draws).transactions ∧
      (∀ (i : ℕ) (h : i < (generate_statement_data_randomize b0 draws).balances.length),
        (generate_statement_data_randomize b0 draws).balances.get ⟨i, h⟩ =
          b0 + (((generate_statement_data_randomize b0 draws).transactions.take (i + 1)).map
            txnDelta).sum) ∧
      (generate_statement_data_randomize b0 draws).balances.getLastD b0 =
        (generate_statement_data_randomize b0 draws).summary.ending_balance ∧
      (generate_statement_data_randomize b0 draws).summary.deposits_total =
        ((generate_statement_data_randomize b0 draws).transactions.map creditAmount).sum ∧
      (generate_statement_data_randomize b0 draws).summary.withdrawals_total =
        ((generate_statement_data_randomize b0 draws).transactions.map debitAmount).sum ∧
      (generate_statement_data_randomize b0 draws).summary.deposits_count =
        (generate_statement_data_randomize b0 draws).transactions.countP
          (fun t => t.credit.isSome) ∧
      (generate_statement_data_randomize b0 draws).summary.withdrawals_count =
        (generate_statement_data_randomize b0 draws).transactions.countP
          (fun t => t.debit.isSome)) ∧
    ((∀ (i : ℕ) (h : i < (generate_statement_data_genPL b0 draws).balances.length),
        (generate_statement_data_genPL b0 draws).balances.get ⟨i, h⟩ =
          b0 + (((generate_statement_data_genPL b0 draws).transactions.take (i + 1)).map
            txnDelta).sum) ∧
      (generate_statement_data_genPL b0 draws).balances.getLastD b0 =
        (generate_statement_data_genPL b0 draws).summary.ending_balance ∧
      (generate_statement_data_genPL b0 draws).summary.deposits_total =
        ((generate_statement_data_genPL b0 draws).transactions.map creditAmount).sum ∧
      (generate_statement_data_genPL b0 draws).summary.withdrawals_total =
        ((generate_statement_data_genPL b0 draws).transactions.map debitAmount).sum ∧
      (generate_statement_data_genPL b0 draws).summary.deposits_count =
        (generate_statement_data_genPL b0 draws).transactions.countP
          (fun t => t.credit.isSome) ∧
      (generate_statement_data_genPL b0 draws).summary.withdrawals_count =
        (generate_statement_data_genPL b0 draws).transactions.countP
          (fun t => t.debit.isSome)) := by
  have hperm : List.Perm (List.insertionSort dateLE (draws.map mkTxn))
      (draws.map mkTxn) :=
    List.perm_insertionSort dateLE (draws.map mkTxn)
  constructor
  · refine ⟨?_, ?_, ?_, ?_, ?_, ?_, ?_⟩
    · exact List.sorted_insertionSort dateLE (draws.map mkTxn)
    · intro i h
      exact balancesAfter_get _ b0 i h
    · exact (balancesAfter_getLastD _ b0)
    · show depositsTotal draws = _
      rw [depositsTotal_eq]
      exact ((hperm.map creditAmount).sum_eq).symm
    · show withdrawalsTotal draws = _
      rw [withdrawalsTotal_eq]
      exact ((hperm.map debitAmount).sum_eq).symm
    · show depositsCount draws = _
      rw [depositsCount_eq]
      exact (hperm.countP_eq _).symm
    · show withdrawalsCount draws = _
      rw [withdrawalsCount_eq]
      exact (hperm.countP_eq _).symm
  · refine ⟨?_, ?_, ?_, ?_, ?_, ?_⟩
    · intro i h
      exact balancesAfter_get _ b0 i h
    · exact (balancesAfter_getLastD _ b0)
    · exact depositsTotal_eq draws
    · exact withdrawalsTotal_eq draws
    · exact depositsCount_eq draws
    · exact withdrawalsCount_eq draws

/-- Claim C5, counterexample to the claim as stated.
`gen_PL.generate_statement_data` stores the transactions in generation
order without sorting: two draws with dates `05/xx` then `03/xx`
(date keys 5 and 3) produce a transaction list whose dates read `[5, 3]` —
not in chronological (ascending date) order. -/
theorem genPL_not_sorted :
    (generate_statement_data_genPL 0
        [⟨5, true, 10⟩, ⟨3, true, 20⟩]).transactions.map Txn.date = [5, 3] ∧
    ¬ List.Sorted dateLE
      (generate_statement_data_genPL 0 [⟨5, true, 10⟩, ⟨3, true, 20⟩]).transactions := by
  constructor
  · rfl
  · intro h
    have := List.rel_of_sorted_cons h (mkTxn ⟨3, true, 20⟩) (by simp [generate_statement_data_genPL, mkTxn])
    simp [dateLE, mkTxn] at this

/-! Section: Transaction-table data resolution in `create_dynamic_statement`
(src/dynamic.py lines 261-298 sequential, 357-392 two-column)

For a table content block with `data_key == "transactions"`, each
transaction dict yields the row `[date, description, amount,
ending_balance]` with `amount = t.get("deposits_credits", "") or
f"-{t.get('withdrawals_debits', '')}"` (Python `or`: the credit string if
non-empty, else `"-"` prefixed to the debit string).  If the resolved
`data` is empty it is replaced by `[["No data available"] *
len(content.get("headers", []))]`.  The sequential and two-column branches
contain this code verbatim twice; both are embedded. -/

structure DynTxn where
  date : String
  description : String
  deposits_credits : String
  withdrawals_debits : String
  ending_balance : String
  deriving Repr, DecidableEq

/-- The `amount` expression of the sequential branch (src/dynamic.py
line 266): `t.get("deposits_credits", "") or f"-{t.get('withdrawals_debits', '')}"`. -/
def amountCellSequential (t : DynTxn) : String :=
  if t.deposits_credits ≠ "" then t.deposits_credits
  else "-" ++ t.withdrawals_debits

/-- The `amount` expression of the two-column branch (src/dynamic.py
line 362), textually identical to the sequential one. -/
def amountCellTwoColumn (t : DynTxn) : String :=
  if t.deposits_credits ≠ "" then t.deposits_credits
  else "-" ++ t.withdrawals_debits

/-- The row built for one transaction in the sequential branch
(src/dynamic.py lines 267-272). -/
def transactionRow (t : DynTxn) : List String :=
  [t.date, t.description, amountCellSequential t, t.ending_balance]

/-- Resolution of a `data_key == "transactions"` table's data, including
the empty-data substitution (src/dynamic.py lines 263-272 and 295-298). -/
def resolveTransactionsData (transactions : List DynTxn) (headers : List String) :
    List (List String) :=
  let data := transactions.map transactionRow
  if data = [] then [List.replicate headers.length "No data available"]
  else data

/-- Truncation applied to every rendered cell (src/dynamic.py lines
321-322): a cell longer than 50 characters is cut to 47 characters plus
`"..."`. -/
def truncateCell (cell : String) : String :=
  if 50 < cell.length then ⟨cell.data.take 47⟩ ++ "..." else cell

/-- Claim C6, corrected claim (empty transaction list).  A record with zero
transactions routed through the dynamic layout's Transaction History table
gets a single substituted row (one cell per header column) instead of an
empty table — but each cell of that row reads `"No data available"`, not
`"No transactions for this period"` as the claim states; non-empty
transaction lists are never substituted. -/
theorem resolveTransactionsData_empty (headers : List String)
    (transactions : List DynTxn) :
    (transactions = [] →
      (resolveTransactionsData transactions headers).length = 1 ∧
      ∀ row ∈ resolveTransactionsData transactions headers,
        row.length = headers.length ∧ ∀ cell ∈ row, cell = "No data available") ∧
    (transactions ≠ [] →
      resolveTransactionsData transactions headers =
        transactions.map transactionRow) := by
  constructor
  · rintro rfl
    refine ⟨rfl, ?_⟩
    intro row hrow
    simp only [resolveTransactionsData, List.map_nil, if_pos,
      List.mem_singleton] at hrow
    subst hrow
    constructor
    · exact List.length_replicate _ _
    · intro cell hcell
      exact List.eq_of_mem_replicate hcell
  · intro h
    have : transactions.map transactionRow ≠ [] := by
      simpa using h
    simp [resolveTransactionsData, this]

/-- Witness for `resolveTransactionsData_empty` at the dynamic layout's
Transaction History headers and an empty transaction list. -/
theorem resolveTransactionsData_empty_witness :
    (([] : List DynTxn) = [] →
      (resolveTransactionsData [] ["Date", "Description", "Amount", "Balance"]).length = 1 ∧
      ∀ row ∈ resolveTransactionsData [] ["Date", "Description", "Amount", "Balance"],
        row.length = (["Date", "Description", "Amount", "Balance"] : List String).length ∧
          ∀ cell ∈ row, cell = "No data available") ∧
    (([] : List DynTxn) ≠ [] →
      resolveTransactionsData [] ["Date", "Description", "Amount", "Balance"] =
        ([] : List DynTxn).map transactionRow) :=
  resolveTransactionsData_empty ["Date", "Description", "Amount", "Balance"] []

/-- Claim C6, counterexample to the claim as stated.  With zero
transactions the substituted row's cells read `"No data available"`; the
string `"No transactions for this period"` appears nowhere in the
rendered table data. -/
theorem noTransactions_text_mismatch :
    resolveTransactionsData [] ["Date", "Description", "Amount", "Balance"] =
      [["No data available", "No data available", "No data available",
        "No data available"]] ∧
    ¬ "No transactions for this period" ∈
      (resolveTransactionsData [] ["Date", "Description", "Amount", "Balance"]).flatten := by
  constructor
  · rfl
  · decide

/-- Claim C10, confirmed (empty-amount rendering).  For every transaction
whose `deposits_credits` and `withdrawals_debits` strings are both empty,
the Amount cell is the single character `"-"` (the `f"-{...}"` prefix
applied to the empty debit string) in both the sequential and the
two-column branch; the later per-cell truncation leaves it unchanged. -/
theorem emptyAmount_renders_dash (t : DynTxn)
    (hc : t.deposits_credits = "") (hd : t.withdrawals_debits = "") :
    amountCellSequential t = "-" ∧ amountCellTwoColumn t = "-" ∧
      truncateCell (amountCellSequential t) = "-" := by
  have h1 : amountCellSequential t = "-" := by
    simp [amountCellSequential, hc, hd]
  have h2 : amountCellTwoColumn t = "-" := by
    simp [amountCellTwoColumn, hc, hd]
  refine ⟨h1, h2, ?_⟩
  rw [h1]
  rfl

/-- Witness for `emptyAmount_renders_dash` at a concrete transaction with
both amount fields empty. -/
theorem emptyAmount_renders_dash_witness :
    ((DynTxn.mk "01/05" "Zero amount" "" "" "$100.00").deposits_credits = "" ∧
      (DynTxn.mk "01/05" "Zero amount" "" "" "$100.00").withdrawals_debits = "") ∧
    (amountCellSequential (DynTxn.mk "01/05" "Zero amount" "" "" "$100.00") = "-" ∧
      amountCellTwoColumn (DynTxn.mk "01/05" "Zero amount" "" "" "$100.00") = "-" ∧
      truncateCell (amountCellSequential
        (DynTxn.mk "01/05" "Zero amount" "" "" "$100.00")) = "-") :=
  ⟨⟨rfl, rfl⟩, emptyAmount_renders_dash _ rfl rfl⟩

/-! Section: Placeholder resolution: `format_text`
(src/dynamic.py lines 89-97; textually identical local helpers in
src/classic_functions.py lines 113-120, 651-658, …)

`format_text(value, ctx)` calls `value.format(**{k: v for k, v in
ctx.items() if isinstance(v, str)})` and catches `(KeyError, ValueError)`,
returning the original `value` on those; any other exception escapes.  We
embed CPython `str.format` semantics on a parsed template: a template is a
sequence of literal runs, named replacement fields `{name}` and positional
replacement fields `{}` / `{0}`.  With only keyword arguments supplied
(as in the source), a named field absent from the (string-valued) context
raises `KeyError`, a positional field raises `IndexError`
("Replacement index out of range" — no positional args are passed), and a
syntactically malformed template raises `ValueError`; fields are
evaluated left to right and the first failure raises. -/

inductive TmplItem where
  | lit (s : String)
  | field (key : String)
  | positional (idx : ℕ)
  deriving Repr, DecidableEq

inductive PyExn where
  | keyError (key : String)
  | indexError
  | valueError
  deriving Repr, DecidableEq

/-- The literal text of a template — the string `value` whose parse the
template is (`{` and `}` written via escapes to keep this function
injective on well-formed templates is not needed; C7 only compares for
equality with this rendering). -/
def tmplText : List TmplItem → String
  | [] => ""
  | .lit s :: rest => s ++ tmplText rest
  | .field key :: rest => "\x7b" ++ key ++ "\x7d" ++ tmplText rest
  | .positional _ :: rest => "\x7b\x7d" ++ tmplText rest

/-- CPython `str.format(**kwargs)` on a parsed template against the
string-valued context entries: left-to-right substitution, `KeyError` on a
missing named field, `IndexError` on any positional field (no positional
arguments are supplied at the call site). -/
def strFormat (ctx : List (String × String)) : List TmplItem → Except PyExn String
  | [] => .ok ""
  | .lit s :: rest => (strFormat ctx rest).map (fun r => s ++ r)
  | .field key :: rest =>
    match ctx.lookup key with
    | some v => (strFormat ctx rest).map (fun r => v ++ r)
    | none => .error (.keyError key)
  | .positional _ :: _ => .error .indexError

/-- Embedding of `format_text(value, ctx)` on the parsed template of the
string `value`: `value.format(...)` with `except (KeyError, ValueError)`
returning the original text.  The result is `Except`: `.error` means an
exception escapes `format_text`. -/
def format_text (tmpl : List TmplItem) (ctx : List (String × String)) :
    Except PyExn String :=
  match strFormat ctx tmpl with
  | .ok s => .ok s
  | .error (.keyError _) => .ok (tmplText tmpl)
  | .error .valueError => .ok (tmplText tmpl)
  | .error .indexError => .error .indexError

/-- `true` iff the template contains a positional replacement field. -/
def hasPositional (tmpl : List TmplItem) : Bool :=
  tmpl.any fun it =>
    match it with
    | .positional _ => true
    | _ => false

theorem strFormat_no_positional (ctx : List (String × String)) :
    ∀ tmpl : List TmplItem, hasPositional tmpl = false →
      strFormat ctx tmpl ≠ .error .indexError := by
  intro tmpl
  induction tmpl with
  | nil => intro _ h; simp [strFormat] at h
  | cons it rest ih =>
    intro hpos
    have hpos' : hasPositional rest = false := by
      cases it <;> simpa [hasPositional] using hpos
    cases it with
    | lit s =>
      intro h
      simp only [strFormat] at h
      cases hrest : strFormat ctx rest with
      | ok r => rw [hrest] at h; simp [Except.map] at h
      | error e =>
        rw [hrest] at h
        simp only [Except.map] at h
        cases h
        exact ih hpos' hrest
    | field key =>
      intro h
      simp only [strFormat] at h
      cases hk : ctx.lookup key with
      | some v =>
        rw [hk] at h
        cases hrest : strFormat ctx rest with
        | ok r => rw [hrest] at h; simp [Except.map] at h
        | error e =>
          rw [hrest] at h
          simp only [Except.map] at h
          cases h
          exact ih hpos' hrest
      | none => rw [hk] at h; simp at h
    | positional idx =>
      exfalso
      simp [hasPositional] at hpos

theorem strFormat_unresolved (ctx : List (String × String)) :
    ∀ tmpl : List TmplItem,
      (∃ k, TmplItem.field k ∈ tmpl ∧ ctx.lookup k = none) →
      ∃ e, strFormat ctx tmpl = .error e := by
  intro tmpl
  induction tmpl with
  | nil => rintro ⟨k, hk, -⟩; simp at hk
  | cons it rest ih =>
    rintro ⟨k, hk, hnone⟩
    cases it with
    | lit s =>
      have hk' : TmplItem.field k ∈ rest := by
        rcases List.mem_cons.mp hk with h | h
        · exact absurd h (by simp)
        · exact h
      obtain ⟨e, he⟩ := ih ⟨k, hk', hnone⟩
      exact ⟨e, by simp [strFormat, he, Except.map]⟩
    | field key =>
      by_cases hkey : ctx.lookup key = none
      · exact ⟨.keyError key, by simp [strFormat, hkey]⟩
      · obtain ⟨v, hv⟩ := Option.ne_none_iff_exists'.mp hkey
        have hk' : TmplItem.field k ∈ rest := by
          rcases List.mem_cons.mp hk with h | h
          · cases h; exact absurd hnone hkey
          · exact h
        obtain ⟨e, he⟩ := ih ⟨k, hk', hnone⟩
        exact ⟨e, by simp [strFormat, hv, he, Except.map]⟩
    | positional idx =>
      exact ⟨.indexError, by simp [strFormat]⟩

/-- Claim C7, corrected claim (soft-failing placeholder resolution).  For
every template free of positional replacement fields and every context,
`format_text` never raises, and whenever the template references a named
field not present among the context's string entries the literal template
text is returned verbatim.  (The positional-field restriction is forced by
`format_text_raises_on_positional`: `str.format` raises `IndexError` on
`"{}"`-style fields because the call site passes only keyword arguments,
and `IndexError` is not caught by `except (KeyError, ValueError)`.) -/
theorem format_text_soft_failure (tmpl : List TmplItem)
    (ctx : List (String × String)) (hpos : hasPositional tmpl = false) :
    (∃ s, format_text tmpl ctx = .ok s) ∧
      ((∃ k, TmplItem.field k ∈ tmpl ∧ ctx.lookup k = none) →
        format_text tmpl ctx = .ok (tmplText tmpl)) := by
  constructor
  · unfold format_text
    cases h : strFormat ctx tmpl with
    | ok s => exact ⟨s, rfl⟩
    | error e =>
      cases e with
      | keyError k => exact ⟨tmplText tmpl, rfl⟩
      | valueError => exact ⟨tmplText tmpl, rfl⟩
      | indexError => exact absurd h (strFormat_no_positional ctx tmpl hpos)
  · intro hunres
    obtain ⟨e, he⟩ := strFormat_unresolved ctx tmpl hunres
    unfold format_text
    rw [he]
    cases e with
    | keyError k => rfl
    | valueError => rfl
    | indexError => exact absurd he (strFormat_no_positional ctx tmpl hpos)

/-- Witness for `format_text_soft_failure`: the template
`"Visit {website}"` against an empty context resolves softly to its own
literal text. -/
theorem format_text_soft_failure_witness :
    hasPositional [TmplItem.lit "Visit ", TmplItem.field "website"] = false ∧
    ((∃ s, format_text [TmplItem.lit "Visit ", TmplItem.field "website"] [] = .ok s) ∧
      ((∃ k, TmplItem.field k ∈ [TmplItem.lit "Visit ", TmplItem.field "website"] ∧
          ([] : List (String × String)).lookup k = none) →
        format_text [TmplItem.lit "Visit ", TmplItem.field "website"] [] =
          .ok (tmplText [TmplItem.lit "Visit ", TmplItem.field "website"]))) :=
  ⟨by decide,
    format_text_soft_failure [TmplItem.lit "Visit ", TmplItem.field "website"] []
      (by decide)⟩

/-- Claim C7, counterexample to the claim as stated.  The template `"{}"`
(one positional field) makes `str.format` raise `IndexError`, which the
`except (KeyError, ValueError)` handler does not catch: `format_text`
raises instead of returning the literal text, for any context. -/
theorem format_text_raises_on_positional :
    format_text [TmplItem.positional 0] [("bank_name", "Chase")] =
      .error PyExn.indexError := rfl

/-! Section: Section ordering in the dynamic layout
(src/dynamic.py lines 212-224)

`get_section_order(title)` looks the title up in a fixed rank dict with
default 10; `middle_sections.sort(key=lambda x:
get_section_order(x["title"]))` sorts the (aliased) `ctx['sections']` list
in place with Python's stable sort.  A stable sort by key has a unique
result — the embedding uses Mathlib's `insertionSort` with the key
preorder, which places an element before the later-inserted elements of
equal key and therefore computes exactly the stable result.  A section is
modelled by its title plus an opaque tag standing for its content list. -/

/-- Embedding of `get_section_order` (the `order` dict with
`order.get(title, 10)`). -/
def get_section_order (title : String) : ℕ :=
  if title = "Welcome Message" then 1
  else if title = "Important Account Information" then 2
  else if title = "Account Summary" then 3
  else if title = "Transaction and Interest Summary" then 4
  else if title = "Transaction History" then 5
  else if title = "Daily Ending Balance" then 6
  else 10

structure DynSection where
  title : String
  contentTag : ℕ
  deriving Repr, DecidableEq

/-- The sort key comparison `get_section_order(x["title"])`. -/
def sectionLE (a b : DynSection) : Prop :=
  get_section_order a.title ≤ get_section_order b.title

instance : DecidableRel sectionLE :=
  fun a b => inferInstanceAs (Decidable (get_section_order a.title ≤ get_section_order b.title))

instance : IsTotal DynSection sectionLE :=
  ⟨fun a b => Nat.le_total (get_section_order a.title) (get_section_order b.title)⟩

instance : IsTrans DynSection sectionLE :=
  ⟨fun _ _ _ h1 h2 => le_trans h1 h2⟩

/-- Embedding of `middle_sections.sort(key=lambda x:
get_section_order(x["title"]))` (stable). -/
def sortSections (sections : List DynSection) : List DynSection :=
  List.insertionSort sectionLE sections

/-- A section whose title is not in the rank dict (default rank 10). -/
def unrecognized (s : DynSection) : Bool :=
  get_section_order s.title == 10

theorem get_section_order_le_ten (title : String) : get_section_order title ≤ 10 := by
  unfold get_section_order
  split_ifs <;> norm_num

theorem sectionLE_of_unrecognized {x b : DynSection} (hx : unrecognized x = true)
    (h : sectionLE x b) : unrecognized b = true := by
  rw [unrecognized, beq_iff_eq] at hx ⊢
  rw [sectionLE, hx] at h
  exact le_antisymm (get_section_order_le_ten _) h

theorem unrecognized_of_not_sectionLE {x b : DynSection} (hx : unrecognized x = true)
    (h : ¬ sectionLE x b) : unrecognized b = false := by
  rw [unrecognized, beq_iff_eq] at hx
  rw [unrecognized, beq_eq_false_iff_ne]
  intro hb
  exact h (by rw [sectionLE, hx, hb])

theorem filter_orderedInsert_unrec_pos (x : DynSection)
    (hx : unrecognized x = true) :
    ∀ l : List DynSection,
      (List.orderedInsert sectionLE x l).filter unrecognized =
        x :: l.filter unrecognized := by
  intro l
  induction l with
  | nil => simp [List.orderedInsert, hx]
  | cons b bs ih =>
    by_cases h : sectionLE x b
    · have hb := sectionLE_of_unrecognized hx h
      simp [List.orderedInsert, h, hx, hb]
    · have hb := unrecognized_of_not_sectionLE hx h
      simp [List.orderedInsert, h, hb, ih]

theorem filter_orderedInsert_unrec_neg (x : DynSection)
    (hx : unrecognized x = false) :
    ∀ l : List DynSection,
      (List.orderedInsert sectionLE x l).filter unrecognized =
        l.filter unrecognized := by
  intro l
  induction l with
  | nil => simp [List.orderedInsert, hx]
  | cons b bs ih =>
    by_cases h : sectionLE x b
    · simp [List.orderedInsert, h, hx]
    · simp [List.orderedInsert, h, List.filter_cons, ih]

/-- Stability of the sort on the unrecognized block: sections with the
default rank 10 keep their relative input order. -/
theorem sortSections_filter_unrecognized (sections : List DynSection) :
    (sortSections sections).filter unrecognized =
      sections.filter unrecognized := by
  induction sections with
  | nil => rfl
  | cons s ss ih =>
    have ih' : List.filter unrecognized (List.insertionSort sectionLE ss) =
        List.filter unrecognized ss := ih
    show (List.orderedInsert sectionLE s (List.insertionSort sectionLE ss)).filter
        unrecognized = _
    cases hs : unrecognized s with
    | true =>
      rw [filter_orderedInsert_unrec_pos s hs, ih']
      simp [List.filter_cons, hs]
    | false =>
      rw [filter_orderedInsert_unrec_neg s hs, ih']
      simp [List.filter_cons, hs]

/-- Claim C8, confirmed (section ordering).  For every input section list:
the sorted list used by the dynamic layout is a permutation of the input
ordered by the section ranks, the four canonical titles have strictly
increasing ranks (so recognized sections render in the fixed canonical
order — every "Important Account Information" section precedes every
"Account Summary" section, which precedes every "Transaction History"
section, which precedes every "Daily Ending Balance" section), and the
unrecognized sections (default rank) keep their relative input order. -/
theorem section_ordering_spec (sections : List DynSection) :
    List.Perm (sortSections sections) sections ∧
    List.Sorted sectionLE (sortSections sections) ∧
    (sortSections sections).filter unrecognized = sections.filter unrecognized ∧
    get_section_order "Important Account Information" <
      get_section_order "Account Summary" ∧
    get_section_order "Account Summary" < get_section_order "Transaction History" ∧
    get_section_order "Transaction History" <
      get_section_order "Daily Ending Balance" := by
  refine ⟨List.perm_insertionSort sectionLE sections,
    List.sorted_insertionSort sectionLE sections,
    sortSections_filter_unrecognized sections, ?_, ?_, ?_⟩ <;> decide

/-! Section: Mutation of the input record by `create_dynamic_statement`
(src/dynamic.py lines 56-79 and 224)

`create_dynamic_statement` first validates that all ten `required_keys`
are in `ctx` (lines 58-62), raising `ValueError` — and so returning with
`ctx` untouched — on the first missing one.  Only after that do three
statements write into the caller's `ctx`: missing summary sub-keys are
filled with `"$0.00"` (line 70), missing transaction keys with `""`
(line 79), and `middle_sections.sort(...)` (line 224) reorders the list
object `ctx['sections']` in place (`middle_sections` aliases it whenever
the required key `sections` holds a non-empty list; for an empty list the
sort is the identity anyway).  All other `ctx` entries are only read.

`DynCtx` models a `ctx` dict whose `summary`, `transactions` and
`sections` entries are split into structured fields (so those three keys
are present by construction); every other entry lives in `rest`.
`ctxAfterRender ctx` is the value of `ctx` after
`create_dynamic_statement(ctx, buf)` returns or raises. -/

/-- The `required_keys` list of `create_dynamic_statement`
(src/dynamic.py lines 58-59), transcribed verbatim. -/
def requiredKeysDynamic : List String :=
  ["bank_name", "account_holder", "account_holder_address", "account_type",
    "summary", "transactions", "website", "contact", "customer_account_number",
    "sections"]

def summaryKeys : List String :=
  ["beginning_balance", "deposits_total", "withdrawals_total", "ending_balance"]

def transactionKeys : List String :=
  ["date", "description", "deposits_credits", "withdrawals_debits", "ending_balance"]

/-- `for key in keys: if key not in d: d[key] = defaultVal` on an
insertion-ordered dict. -/
def fillMissing (defaultVal : String) (keys : List String)
    (d : List (String × String)) : List (String × String) :=
  keys.foldl (fun d k => if k ∈ d.map Prod.fst then d else d ++ [(k, defaultVal)]) d

structure DynCtx where
  summary : List (String × String)
  transactions : List (List (String × String))
  sections : List DynSection
  rest : List (String × String)
  deriving Repr, DecidableEq

/-- The keys present in the modelled `ctx` dict: the keys of `rest`
together with the three structured entries (only membership matters for
`key not in ctx`, so the order is irrelevant). -/
def dynCtxKeys (ctx : DynCtx) : List String :=
  ctx.rest.map Prod.fst ++ ["summary", "transactions", "sections"]

/-- The state of the caller's `ctx` after `create_dynamic_statement(ctx,
buf)` returns or raises: if the required-keys validation (lines 58-62)
fails, the `ValueError` is raised before any write and `ctx` is
unchanged; otherwise the summary and transaction defaults are filled in
and `sections` is sorted in place, with every other entry (`rest`)
unchanged. -/
def ctxAfterRender (ctx : DynCtx) : DynCtx :=
  match validateRequired requiredKeysDynamic (dynCtxKeys ctx) with
  | .error _ => ctx
  | .ok _ =>
    { summary := fillMissing "$0.00" summaryKeys ctx.summary
      transactions := ctx.transactions.map (fillMissing "" transactionKeys)
      sections := sortSections ctx.sections
      rest := ctx.rest }

theorem fillMissing_of_complete (defaultVal : String) (keys : List String) :
    ∀ d : List (String × String), (∀ k ∈ keys, k ∈ d.map Prod.fst) →
      fillMissing defaultVal keys d = d := by
  induction keys with
  | nil => intro d _; rfl
  | cons k ks ih =>
    intro d h
    have hk : k ∈ d.map Prod.fst := h k (List.mem_cons_self _ _)
    show List.foldl _ (if k ∈ d.map Prod.fst then d else _) ks = d
    rw [if_pos hk]
    exact ih d (fun k' hk' => h k' (List.mem_cons_of_mem _ hk'))

/-- A fully populated, well-formed record: all ten required keys present
(the seven string-valued ones in `rest`), full summary, one complete
transaction, sections already in canonical order.  Used by the witness of
`ctxAfterRender_of_wellformed`. -/
def wellformedSampleCtx : DynCtx :=
  { summary := [("beginning_balance", "$1.00"), ("deposits_total", "$2.00"),
      ("withdrawals_total", "$3.00"), ("ending_balance", "$0.00")]
    transactions := [[("date", "01/02"), ("description", "Refund"),
      ("deposits_credits", "$2.00"), ("withdrawals_debits", ""),
      ("ending_balance", "$3.00")]]
    sections := [⟨"Important Account Information", 0⟩, ⟨"Transaction History", 1⟩]
    rest := [("bank_name", "Chase"), ("account_holder", "JOHN DOE"),
      ("account_holder_address", "1 Main St, Springfield, IL 62701"),
      ("account_type", "Chase Total Checking"), ("website", "chase.com"),
      ("contact", "1-800-242-7338"), ("customer_account_number", "123456789")] }

/-- A fully populated record that passes the required-keys validation but
whose `sections` list arrives out of canonical order
(`[Account Summary, Important Account Information]`).  Used by the
counterexample `ctxAfterRender_mutates`. -/
def misorderedSampleCtx : DynCtx :=
  { summary := [("beginning_balance", "$1.00"), ("deposits_total", "$0.00"),
      ("withdrawals_total", "$0.00"), ("ending_balance", "$1.00")]
    transactions := []
    sections := [⟨"Account Summary", 0⟩, ⟨"Important Account Information", 1⟩]
    rest := [("bank_name", "Chase"), ("account_holder", "JOHN DOE"),
      ("account_holder_address", "1 Main St, Springfield, IL 62701"),
      ("account_type", "Chase Total Checking"), ("website", "chase.com"),
      ("contact", "1-800-242-7338"), ("customer_account_number", "123456789")] }

/-- Claim C9, corrected claim (frame effect of rendering).  For a record
whose summary holds all four required summary sub-keys, whose transactions
each hold all five transaction keys, and whose `sections` list is already
in canonical order, `create_dynamic_statement` leaves the input `ctx`
unchanged — whether the required-keys validation passes (all three
mutation sites are then identities) or fails (the `ValueError` is raised
before any write).  (All three hypotheses are forced: on a validated
record the renderer fills missing summary/transaction keys in place and
sorts `ctx['sections']` in place — see `ctxAfterRender_mutates` for a
record it mutates.) -/
theorem ctxAfterRender_of_wellformed (ctx : DynCtx)
    (hsum : ∀ k ∈ summaryKeys, k ∈ ctx.summary.map Prod.fst)
    (htx : ∀ tx ∈ ctx.transactions, ∀ k ∈ transactionKeys, k ∈ tx.map Prod.fst)
    (hsec : List.Sorted sectionLE ctx.sections) :
    ctxAfterRender ctx = ctx := by
  have h1 : fillMissing "$0.00" summaryKeys ctx.summary = ctx.summary :=
    fillMissing_of_complete _ _ _ hsum
  have h2 : ∀ txs : List (List (String × String)),
      (∀ tx ∈ txs, ∀ k ∈ transactionKeys, k ∈ tx.map Prod.fst) →
      txs.map (fillMissing "" transactionKeys) = txs := by
    intro txs
    induction txs with
    | nil => intro _; rfl
    | cons tx txs ih =>
      intro h
      simp only [List.map_cons]
      rw [fillMissing_of_complete _ _ tx (h tx (List.mem_cons_self _ _)),
        ih (fun t ht => h t (List.mem_cons_of_mem _ ht))]
  have h3 : sortSections ctx.sections = ctx.sections :=
    List.Sorted.insertionSort_eq hsec
  unfold ctxAfterRender
  cases validateRequired requiredKeysDynamic (dynCtxKeys ctx) with
  | error e => rfl
  | ok u =>
    rw [h1, h2 ctx.transactions htx, h3]

/-- Witness for `ctxAfterRender_of_wellformed` at `wellformedSampleCtx`, a
concrete record that passes the ten-key validation and holds all summary
and transaction keys, with sections already in canonical order. -/
theorem ctxAfterRender_of_wellformed_witness :
    ((∀ k ∈ summaryKeys, k ∈ wellformedSampleCtx.summary.map Prod.fst) ∧
      (∀ tx ∈ wellformedSampleCtx.transactions,
        ∀ k ∈ transactionKeys, k ∈ tx.map Prod.fst) ∧
      List.Sorted sectionLE wellformedSampleCtx.sections ∧
      validateRequired requiredKeysDynamic (dynCtxKeys wellformedSampleCtx) =
        .ok ()) ∧
    ctxAfterRender wellformedSampleCtx = wellformedSampleCtx :=
  ⟨⟨by decide, by decide, by decide, rfl⟩,
    ctxAfterRender_of_wellformed _ (by decide) (by decide) (by decide)⟩

/-- Claim C9, counterexample to the claim as stated.  The record
`misorderedSampleCtx` holds all ten required keys — so the validation at
dynamic.py lines 58-62 passes and the render proceeds — with full summary,
no transactions, and a `sections` list arriving as `[Account Summary,
Important Account Information]`.  The render call mutates it:
`ctx['sections']` is reordered in place to the canonical order, so the
input StatementRecord is not left unchanged. -/
theorem ctxAfterRender_mutates :
    validateRequired requiredKeysDynamic (dynCtxKeys misorderedSampleCtx) = .ok () ∧
    (ctxAfterRender misorderedSampleCtx).sections =
      [⟨"Important Account Information", 1⟩, ⟨"Account Summary", 0⟩] ∧
    ctxAfterRender misorderedSampleCtx ≠ misorderedSampleCtx := by
  refine ⟨rfl, rfl, ?_⟩
  decide

end BankPL
